import Mathlib

/-!
Verification of the nats-auth-operator credential hierarchy engine.

This file gives a shallow embedding, in Lean 4, of the parts of the
nats-auth-operator repository that the verified properties talk about:

* the key-manager constructors and signing functions of `internal/jwt`
  (`account.go`, `operator.go`, `user.go`),
* the configuration renderers of `internal/authconf/render.go`,
* the resolver writers of `internal/resolver/writer.go`,
* the reconciliation logic of the `NatsAccount`, `NatsUser` and
  `NatsAuthConfig` controllers in `internal/controller`.

External collaborators are modelled explicitly:

* the nats-io/nkeys library is modelled as a deterministic seed decoder;
  keypair generation is made deterministic by passing the entropy the
  library would draw as an explicit argument;
* the nats-io/jwt library is modelled by structured claims values; signing
  produces a structured token instead of an opaque string, so that the
  issuer field of a signed token can be inspected;
* the Kubernetes API is modelled as explicit state records (secret data is
  an association list, a missing object is `Option.none`); a reconcile
  step is a pure function from the visible state (plus entropy and clock
  inputs) to a new state together with the list of writes it performed;
* wall-clock time is an explicit `now` argument.
-/

namespace NatsOp

/-- Byte strings (Go `[]byte`) are modelled as lists of naturals. -/
abbrev Bytes := List Nat

/-! ### Model of the external nats-io/nkeys library

`nkeys.FromSeed` deterministically reconstructs a keypair from a seed and
fails when the seed is malformed; `nkeys.CreateAccount` / `CreateOperator`
/ `CreateUser` generate a fresh keypair from fresh entropy; `PublicKey`
and `Seed` are deterministic functions of the keypair.  The model keeps
exactly this interface: a keypair is its seed bytes, a seed is well formed
when it is non-empty and carries the nkeys seed marker byte (the encoded
form of an nkeys seed always starts with the character S), and the public
key is an injective deterministic encoding of the seed bytes. -/

/-- Validity test a seed must pass in `nkeys.FromSeed` (prefix byte check;
malformed material is rejected with an error). -/
def seedValid (s : Bytes) : Bool :=
  decide (0 < s.length) && (s.headI == 83)

/-- Model of an nkeys keypair: fully determined by its seed bytes. -/
structure KeyPair where
  seedBytes : Bytes
deriving DecidableEq, Repr

/-- Model of `kp.PublicKey()`: a deterministic encoding of the seed. -/
def KeyPair.publicKey (kp : KeyPair) : String :=
  String.intercalate ("_") (("PK") :: kp.seedBytes.map toString)

/-- Model of `kp.Seed()`. -/
def KeyPair.seed (kp : KeyPair) : Bytes := kp.seedBytes

/-- Model of `nkeys.FromSeed`. -/
def nkeysFromSeed (s : Bytes) : Except String KeyPair :=
  if seedValid s then Except.ok ⟨s⟩ else Except.error ("invalid seed")

/-- Model of `nkeys.CreateAccount`: fresh entropy is an explicit argument;
the generated seed carries the marker and role bytes, hence is valid. -/
def nkeysCreateAccount (entropy : Bytes) : KeyPair := ⟨83 :: 65 :: entropy⟩

/-- Model of `nkeys.CreateOperator`. -/
def nkeysCreateOperator (entropy : Bytes) : KeyPair := ⟨83 :: 79 :: entropy⟩

/-- Model of `nkeys.CreateUser`. -/
def nkeysCreateUser (entropy : Bytes) : KeyPair := ⟨83 :: 85 :: entropy⟩

/-! ### Model of the declared-state schema (api/v1alpha1) -/

/-- Go `Permissions` from `api/v1alpha1/natsuser_types.go`. -/
structure Permissions where
  PublishAllow : List String
  PublishDeny : List String
  SubscribeAllow : List String
  SubscribeDeny : List String
deriving DecidableEq, Repr

/-- Go `JetStreamLimits` from `api/v1alpha1/natsaccount_types.go`. -/
structure JetStreamLimits where
  MemoryStorage : Int
  DiskStorage : Int
  Streams : Int
  Consumer : Int
  MaxAckPending : Int
  MemoryMaxStreamBytes : Int
  DiskMaxStreamBytes : Int
  MaxBytesRequired : Bool
deriving DecidableEq, Repr

/-- Go `AccountLimits` from `api/v1alpha1/natsaccount_types.go`. -/
structure AccountLimits where
  Conn : Int
  Subs : Int
  Payload : Int
  Data : Int
  Exports : Int
  Imports : Int
  WildcardExports : Bool
  JetStream : Option JetStreamLimits
deriving DecidableEq, Repr

/-! ### Model of the external nats-io/jwt library claims -/

/-- Flattened operator limits inside `jwt.AccountClaims.Limits`
(the fields `internal/jwt/account.go` assigns to). -/
structure ClaimsLimits where
  conn : Int
  subs : Int
  payload : Int
  data : Int
  exports : Int
  imports : Int
  wildcardExports : Bool
  memoryStorage : Int
  diskStorage : Int
  streams : Int
  consumer : Int
  maxAckPending : Int
  memoryMaxStreamBytes : Int
  diskMaxStreamBytes : Int
  maxBytesRequired : Bool
deriving DecidableEq, Repr

/-- Defaults installed by `jwt.NewAccountClaims`: nats and account limits
unlimited, wildcard exports allowed, JetStream disabled. -/
def defaultClaimsLimits : ClaimsLimits :=
  { conn := -1, subs := -1, payload := -1, data := -1, exports := -1,
    imports := -1, wildcardExports := true, memoryStorage := 0,
    diskStorage := 0, streams := 0, consumer := 0, maxAckPending := 0,
    memoryMaxStreamBytes := 0, diskMaxStreamBytes := 0,
    maxBytesRequired := false }

/-- Model of `jwt.AccountClaims` (the fields the repository reads or
writes: subject, name, description, issuer, issue time, limits). -/
structure AccountClaims where
  sub : String
  name : String
  description : String
  issuer : String
  iat : Int
  limits : ClaimsLimits
deriving DecidableEq, Repr

/-- Model of `jwt.NewAccountClaims`. -/
def newAccountClaims (pubKey : String) : AccountClaims :=
  { sub := pubKey, name := "", description := "", issuer := "", iat := 0,
    limits := defaultClaimsLimits }

/-- Model of `jwt.UserClaims` (subject, name, issuer, issue time, and the
four permission subject lists). -/
structure UserClaims where
  sub : String
  name : String
  issuer : String
  iat : Int
  pubAllow : List String
  pubDeny : List String
  subAllow : List String
  subDeny : List String
deriving DecidableEq, Repr

/-- Model of `jwt.NewUserClaims`. -/
def newUserClaims (pubKey : String) : UserClaims :=
  { sub := pubKey, name := "", issuer := "", iat := 0,
    pubAllow := [], pubDeny := [], subAllow := [], subDeny := [] }

/-- Model of `jwt.OperatorClaims` (subject, name, issuer, issue time). -/
structure OperatorClaims where
  sub : String
  name : String
  issuer : String
  iat : Int
deriving DecidableEq, Repr

/-- Model of `jwt.NewOperatorClaims`. -/
def newOperatorClaims (pubKey : String) : OperatorClaims :=
  { sub := pubKey, name := "", issuer := "", iat := 0 }

/-- Model of a signed token, `claims.Encode(kp)`: the signed claims
document together with the public key of the keypair that signed it.  The
repository treats the encoded string as opaque; the structured form keeps
the claims inspectable so that the issuer of a token can be stated. -/
structure SignedToken (C : Type) where
  claims : C
  signedWith : String
deriving DecidableEq, Repr

/-- Model of `claims.Encode(kp)` for any claims type. -/
def jwtEncode {C : Type} (claims : C) (kp : KeyPair) : SignedToken C :=
  { claims := claims, signedWith := kp.publicKey }

/-! ### internal/jwt managers (account.go, operator.go, user.go) -/

/-- Go `AccountManager` from `internal/jwt/account.go`. -/
structure AccountManager where
  accountKP : KeyPair
deriving DecidableEq, Repr

/-- Go `NewAccountManager` from `internal/jwt/account.go`: a non-empty seed
is decoded with `nkeys.FromSeed` (failing on malformed material); an
empty seed triggers generation of a fresh account keypair, whose entropy
is the explicit `entropy` argument. -/
def NewAccountManager (seed : Bytes) (entropy : Bytes) :
    Except String AccountManager :=
  if 0 < seed.length then
    match nkeysFromSeed seed with
    | Except.ok kp => Except.ok ⟨kp⟩
    | Except.error e =>
        Except.error ("failed to create keypair from seed: " ++ e)
  else
    Except.ok ⟨nkeysCreateAccount entropy⟩

/-- Go `GetPublicKey` of an account manager. -/
def AccountManager.GetPublicKey (am : AccountManager) : String :=
  am.accountKP.publicKey

/-- Go `GetSeed` of an account manager. -/
def AccountManager.GetSeed (am : AccountManager) : Bytes :=
  am.accountKP.seed

/-- Go `CreateAccountClaims` from `internal/jwt/account.go`: builds fresh
account claims for the manager key, copying description and the declared
limits (JetStream limits only when present). -/
def AccountManager.CreateAccountClaims (am : AccountManager)
    (name description : String) (limits : Option AccountLimits)
    (now : Int) : AccountClaims :=
  let pubKey := am.accountKP.publicKey
  let claims := newAccountClaims pubKey
  let claims := { claims with name := name, description := description,
                              iat := now }
  match limits with
  | none => claims
  | some l =>
      let base := { claims.limits with
        conn := l.Conn, subs := l.Subs, payload := l.Payload,
        data := l.Data, exports := l.Exports, imports := l.Imports,
        wildcardExports := l.WildcardExports }
      let withJS :=
        match l.JetStream with
        | none => base
        | some js =>
            { base with
              memoryStorage := js.MemoryStorage,
              diskStorage := js.DiskStorage,
              streams := js.Streams,
              consumer := js.Consumer,
              maxAckPending := js.MaxAckPending,
              memoryMaxStreamBytes := js.MemoryMaxStreamBytes,
              diskMaxStreamBytes := js.DiskMaxStreamBytes,
              maxBytesRequired := js.MaxBytesRequired }
      { claims with limits := withJS }

/-- Go `SignUserJWT` from `internal/jwt/account.go`: sets the issuer of the
user claims to the account public key, then encodes with the account
keypair. -/
def AccountManager.SignUserJWT (am : AccountManager)
    (userClaims : UserClaims) : SignedToken UserClaims :=
  let pubKey := am.accountKP.publicKey
  jwtEncode { userClaims with issuer := pubKey } am.accountKP

/-- Go `OperatorManager` from the operator manager source file. -/
structure OperatorManager where
  operatorKP : KeyPair
  operatorJWT : SignedToken OperatorClaims
deriving DecidableEq, Repr

/-- Go `NewOperatorManager`: decodes a non-empty seed (or generates a fresh
operator keypair from explicit entropy), then builds and self-signs the
operator claims. -/
def NewOperatorManager (seed : Bytes) (entropy : Bytes)
    (operatorName : String) (now : Int) : Except String OperatorManager :=
  let kpE : Except String KeyPair :=
    if 0 < seed.length then
      match nkeysFromSeed seed with
      | Except.ok kp => Except.ok kp
      | Except.error e =>
          Except.error ("failed to create keypair from seed: " ++ e)
    else
      Except.ok (nkeysCreateOperator entropy)
  match kpE with
  | Except.error e => Except.error e
  | Except.ok kp =>
      let pubKey := kp.publicKey
      let claims := newOperatorClaims pubKey
      let claims := { claims with name := operatorName, issuer := pubKey,
                                  iat := now }
      Except.ok { operatorKP := kp, operatorJWT := jwtEncode claims kp }

/-- Go `GetPublicKey` of an operator manager. -/
def OperatorManager.GetPublicKey (om : OperatorManager) : String :=
  om.operatorKP.publicKey

/-- Go `GetSeed` of an operator manager. -/
def OperatorManager.GetSeed (om : OperatorManager) : Bytes :=
  om.operatorKP.seed

/-- Go `GetJWT` of an operator manager. -/
def OperatorManager.GetJWT (om : OperatorManager) :
    SignedToken OperatorClaims :=
  om.operatorJWT

/-- Go `SignAccountJWT`: sets the issuer of the account claims to the
operator public key, then encodes with the operator keypair. -/
def OperatorManager.SignAccountJWT (om : OperatorManager)
    (accountClaims : AccountClaims) : SignedToken AccountClaims :=
  let pubKey := om.operatorKP.publicKey
  jwtEncode { accountClaims with issuer := pubKey } om.operatorKP

/-- Go `UserManager` from the user manager source file. -/
structure UserManager where
  userKP : KeyPair
deriving DecidableEq, Repr

/-- Go `NewUserManager`: decodes a non-empty seed or generates a fresh user
keypair from explicit entropy. -/
def NewUserManager (seed : Bytes) (entropy : Bytes) :
    Except String UserManager :=
  if 0 < seed.length then
    match nkeysFromSeed seed with
    | Except.ok kp => Except.ok ⟨kp⟩
    | Except.error e =>
        Except.error ("failed to create keypair from seed: " ++ e)
  else
    Except.ok ⟨nkeysCreateUser entropy⟩

/-- Go `GetPublicKey` of a user manager. -/
def UserManager.GetPublicKey (um : UserManager) : String :=
  um.userKP.publicKey

/-- Go `GetSeed` of a user manager. -/
def UserManager.GetSeed (um : UserManager) : Bytes :=
  um.userKP.seed

/-- Go `CreateUserClaims` from the user manager source file: fresh user
claims for the manager key with the declared name; each permission list
is appended only when non-empty (which coincides with a plain copy). -/
def UserManager.CreateUserClaims (um : UserManager) (name : String)
    (permissions : Option Permissions) (now : Int) : UserClaims :=
  let pubKey := um.userKP.publicKey
  let claims := newUserClaims pubKey
  let claims := { claims with name := name, iat := now }
  match permissions with
  | none => claims
  | some p =>
      let claims := if 0 < p.PublishAllow.length then
        { claims with pubAllow := claims.pubAllow ++ p.PublishAllow }
        else claims
      let claims := if 0 < p.PublishDeny.length then
        { claims with pubDeny := claims.pubDeny ++ p.PublishDeny }
        else claims
      let claims := if 0 < p.SubscribeAllow.length then
        { claims with subAllow := claims.subAllow ++ p.SubscribeAllow }
        else claims
      let claims := if 0 < p.SubscribeDeny.length then
        { claims with subDeny := claims.subDeny ++ p.SubscribeDeny }
        else claims
      claims

/-- Public key of a manager construction result, when it succeeded. -/
def amPubKey (r : Except String AccountManager) : Option String :=
  match r with
  | Except.ok am => some am.GetPublicKey
  | Except.error _ => none

/-- Public key of an operator manager construction result. -/
def omPubKey (r : Except String OperatorManager) : Option String :=
  match r with
  | Except.ok om => some om.GetPublicKey
  | Except.error _ => none

/-- Public key of a user manager construction result. -/
def umPubKey (r : Except String UserManager) : Option String :=
  match r with
  | Except.ok um => some um.GetPublicKey
  | Except.error _ => none

/-- Success test for a construction result. -/
def exceptOk {E A : Type} (r : Except E A) : Bool :=
  match r with
  | Except.ok _ => true
  | Except.error _ => false

/-! ### Claim C1 -/

/-- C1: every user token signed by `AccountManager.SignUserJWT` carries
the account public key as issuer, and every account token signed by
`OperatorManager.SignAccountJWT` carries the operator public key as
issuer, whatever issuer the caller had pre-populated in the claims. -/
theorem C1_signer_sets_issuer (am : AccountManager) (om : OperatorManager)
    (uc : UserClaims) (ac : AccountClaims) :
    (am.SignUserJWT uc).claims.issuer = am.GetPublicKey ∧
    (om.SignAccountJWT ac).claims.issuer = om.GetPublicKey := by
  constructor <;> rfl

/-! ### Claim C5 -/

/-- C5: constructing a key manager from a fixed non-empty seed yields the
same public key on every call (the entropy, operator name and clock
arguments are immaterial), and the construction fails when the seed is
malformed. -/
theorem C5_manager_determinism (seed e1 e2 : Bytes) (n1 n2 : String)
    (t1 t2 : Int) (h : 0 < seed.length) :
    amPubKey (NewAccountManager seed e1)
      = amPubKey (NewAccountManager seed e2) ∧
    omPubKey (NewOperatorManager seed e1 n1 t1)
      = omPubKey (NewOperatorManager seed e2 n2 t2) ∧
    umPubKey (NewUserManager seed e1)
      = umPubKey (NewUserManager seed e2) ∧
    (seedValid seed = false →
      exceptOk (NewAccountManager seed e1) = false ∧
      exceptOk (NewOperatorManager seed e1 n1 t1) = false ∧
      exceptOk (NewUserManager seed e1) = false) := by
  refine ⟨?_, ?_, ?_, ?_⟩
  · simp only [NewAccountManager, if_pos h]
  · simp only [NewOperatorManager, if_pos h]
    cases hfs : nkeysFromSeed seed <;> rfl
  · simp only [NewUserManager, if_pos h]
  · intro hbad
    have hfs : nkeysFromSeed seed = Except.error ("invalid seed") := by
      simp [nkeysFromSeed, hbad]
    refine ⟨?_, ?_, ?_⟩
    · simp [NewAccountManager, if_pos h, hfs, exceptOk]
    · simp [NewOperatorManager, if_pos h, hfs, exceptOk]
    · simp [NewUserManager, if_pos h, hfs, exceptOk]

/-- Witness for C5 at the malformed one-byte seed `[7]` (non-empty, yet
rejected by the seed validity check). -/
theorem C5_manager_determinism_witness :
    amPubKey (NewAccountManager [7] [1])
      = amPubKey (NewAccountManager [7] [2]) ∧
    omPubKey (NewOperatorManager [7] [1] ("a") 0)
      = omPubKey (NewOperatorManager [7] [2] ("b") 1) ∧
    umPubKey (NewUserManager [7] [1])
      = umPubKey (NewUserManager [7] [2]) ∧
    (seedValid [7] = false →
      exceptOk (NewAccountManager [7] [1]) = false ∧
      exceptOk (NewOperatorManager [7] [1] ("a") 0) = false ∧
      exceptOk (NewUserManager [7] [1]) = false) :=
  C5_manager_determinism [7] [1] [2] ("a") ("b") 0 1 (by decide)

/-! ### internal/authconf/render.go -/

/-- Go `TokenUser` from `internal/authconf/render.go`. -/
structure TokenUser where
  Username : String
  Password : String
  Token : String
  Permissions : Option Permissions
deriving DecidableEq, Repr

/-- Escaping of a single character under Go `%q` (quote and backslash are
escaped; the configuration text the operator renders contains no other
characters `%q` would alter). -/
def goQuoteChar (c : Char) : String :=
  if c = Char.ofNat 34 then "\\" ++ "\"" else
  if c = Char.ofNat 92 then "\\" ++ "\\" else String.singleton c

/-- Model of Go `fmt.Sprintf("%q", s)`. -/
def goQuote (s : String) : String :=
  "\"" ++ String.join (s.toList.map goQuoteChar) ++ "\""

/-- Go `formatSubjectList` from `internal/authconf/render.go`: a single
subject is rendered bare-quoted, any other count as a bracketed list. -/
def formatSubjectList (subjects : List String) : String :=
  if subjects.length = 1 then goQuote subjects.headI
  else "[" ++ String.intercalate (", ") (subjects.map goQuote) ++ "]"

/-- Publish sub-block of a user entry (lines 49-58 of render.go). -/
def renderPublishBlock (p : Permissions) : String :=
  if 0 < p.PublishAllow.length ∨ 0 < p.PublishDeny.length then
    "        publish: \x7b\n"
    ++ (if 0 < p.PublishAllow.length then
        "          allow: " ++ formatSubjectList p.PublishAllow ++ "\n"
        else "")
    ++ (if 0 < p.PublishDeny.length then
        "          deny: " ++ formatSubjectList p.PublishDeny ++ "\n"
        else "")
    ++ "        \x7d\n"
  else ""

/-- Subscribe sub-block of a user entry (lines 61-70 of render.go). -/
def renderSubscribeBlock (p : Permissions) : String :=
  if 0 < p.SubscribeAllow.length ∨ 0 < p.SubscribeDeny.length then
    "        subscribe: \x7b\n"
    ++ (if 0 < p.SubscribeAllow.length then
        "          allow: " ++ formatSubjectList p.SubscribeAllow ++ "\n"
        else "")
    ++ (if 0 < p.SubscribeDeny.length then
        "          deny: " ++ formatSubjectList p.SubscribeDeny ++ "\n"
        else "")
    ++ "        \x7d\n"
  else ""

/-- One user entry of the flat authorization block, without the trailing
comma/newline the loop adds (lines 30-75 of render.go). -/
def renderTokenUserEntry (user : TokenUser) : String :=
  "    \x7b\n"
  ++ (if user.Username ≠ "" then
      "      user: " ++ goQuote user.Username ++ "\n" else "")
  ++ (if user.Token ≠ "" then
      "      token: " ++ goQuote user.Token ++ "\n"
      else if user.Password ≠ "" then
      "      password: " ++ goQuote user.Password ++ "\n"
      else "")
  ++ (match user.Permissions with
      | none => ""
      | some p =>
          "      permissions: \x7b\n"
          ++ renderPublishBlock p ++ renderSubscribeBlock p
          ++ "      \x7d\n")
  ++ "    \x7d"

/-- Loop body shared by the flat and the preload renderers: each line is
followed by a comma unless it is the last, then by a newline. -/
def renderLines : List String → String
  | [] => ""
  | [x] => x ++ "\n"
  | x :: y :: ys => x ++ ",\n" ++ renderLines (y :: ys)

/-- Go `RenderTokenAuthConf` from `internal/authconf/render.go`: the empty
user list renders to the empty string; otherwise one authorization block
with one entry per user. -/
def RenderTokenAuthConf (users : List TokenUser) : String :=
  if users.length = 0 then ""
  else
    "authorization \x7b\n" ++ "  users = [\n"
    ++ renderLines (users.map renderTokenUserEntry)
    ++ "  ]\n" ++ "\x7d\n"

/-- Go `AccountJWT` from `internal/authconf/render.go`. -/
structure AccountJWT where
  AccountName : String
  AccountID : String
  JWT : String
deriving DecidableEq, Repr

/-- One `resolver_preload` entry, without the trailing comma/newline the
loop adds (line 140 of render.go). -/
def preloadEntry (acc : AccountJWT) : String :=
  "  " ++ goQuote acc.AccountID ++ ": " ++ goQuote acc.JWT

/-- Go `RenderJWTAuthConfWithPreload` from `internal/authconf/render.go`:
the operator token followed, when any account is present, by a
`resolver_preload` block with one entry per account. -/
def RenderJWTAuthConfWithPreload (operatorJWT : String)
    (accounts : List AccountJWT) : String :=
  "operator: " ++ operatorJWT ++ "\n\n"
  ++ (if 0 < accounts.length then
      "resolver_preload: \x7b\n"
      ++ renderLines (accounts.map preloadEntry)
      ++ "\x7d\n"
      else "")

/-! ### Structural characterization of the rendered blocks -/

/-- Separator-join used to characterize the entry loops. -/
def joinSep (sep : String) : List String → String
  | [] => ""
  | [x] => x
  | x :: y :: ys => x ++ sep ++ joinSep sep (y :: ys)

theorem string_append_assoc (a b c : String) :
    a ++ b ++ c = a ++ (b ++ c) := by
  cases a with
  | mk da =>
    cases b with
    | mk db =>
      cases c with
      | mk dc =>
        show String.mk (da ++ db ++ dc) = String.mk (da ++ (db ++ dc))
        rw [List.append_assoc]

theorem renderLines_eq_joinSep (x : String) (xs : List String) :
    renderLines (x :: xs) = joinSep (",\n") (x :: xs) ++ "\n" := by
  induction xs generalizing x with
  | nil => rfl
  | cons y ys ih =>
      show x ++ ",\n" ++ renderLines (y :: ys)
        = x ++ ",\n" ++ joinSep (",\n") (y :: ys) ++ "\n"
      rw [ih y, string_append_assoc (x ++ ",\n")]

/-- The single authorization block emitted for a non-empty user list. -/
def authorizationBlock (entries : List String) : String :=
  "authorization \x7b\n" ++ "  users = [\n"
  ++ joinSep (",\n") entries ++ "\n"
  ++ "  ]\n" ++ "\x7d\n"

/-- The preload block emitted for a non-empty account list. -/
def preloadBlock (entries : List String) : String :=
  "resolver_preload: \x7b\n" ++ joinSep (",\n") entries ++ "\n"
  ++ "\x7d\n"

/-! ### Claim C8 -/

/-- C8: rendering the flat authorization dialect with an empty user list
returns the empty string (no authorization block with zero entries is
ever emitted), while a non-empty user list renders to exactly one
authorization block containing one entry per user. -/
theorem C8_no_empty_authorization_block (users : List TokenUser) :
    RenderTokenAuthConf [] = "" ∧
    (users ≠ [] →
      RenderTokenAuthConf users
        = authorizationBlock (users.map renderTokenUserEntry) ∧
      (users.map renderTokenUserEntry).length = users.length) := by
  refine ⟨rfl, ?_⟩
  intro hne
  constructor
  · match users, hne with
    | u :: us, _ =>
        simp only [RenderTokenAuthConf, authorizationBlock, List.map_cons,
          List.length_cons, renderLines_eq_joinSep]
        rw [if_neg (Nat.succ_ne_zero us.length)]
        simp only [string_append_assoc]
  · exact List.length_map users renderTokenUserEntry

/-- Witness for C8: a one-user list renders to a single authorization
block with a single entry. -/
theorem C8_no_empty_authorization_block_witness :
    ([{ Username := "u", Password := "p", Token := "",
        Permissions := none }] : List TokenUser) ≠ [] ∧
    (RenderTokenAuthConf
        [{ Username := "u", Password := "p", Token := "",
           Permissions := none }]
      = authorizationBlock
          (([{ Username := "u", Password := "p", Token := "",
               Permissions := none }] : List TokenUser).map
            renderTokenUserEntry) ∧
    (([{ Username := "u", Password := "p", Token := "",
         Permissions := none }] : List TokenUser).map
        renderTokenUserEntry).length
      = ([{ Username := "u", Password := "p", Token := "",
            Permissions := none }] : List TokenUser).length) :=
  ⟨by decide,
   (C8_no_empty_authorization_block
     [{ Username := "u", Password := "p", Token := "",
        Permissions := none }]).2 (by decide)⟩

/-! ### Claim C7 -/

/-- C7: rendering the preload configuration is deterministic (equal
inputs give byte-for-byte equal output), and the preload mapping it
renders is order-independent: permuting the account list leaves the
multiset of rendered preload entries (account public id paired with
account token) unchanged; the output is the operator token followed by a
preload block over exactly those entries. -/
theorem C7_preload_idempotent_and_order_independent (op op2 : String)
    (accs1 accs2 accs3 : List AccountJWT) (hop : op = op2)
    (heq : accs1 = accs3) (hperm : accs1.Perm accs2) :
    RenderJWTAuthConfWithPreload op accs1
      = RenderJWTAuthConfWithPreload op2 accs3 ∧
    (↑(accs1.map (fun a => (a.AccountID, a.JWT)))
      : Multiset (String × String))
      = ↑(accs2.map (fun a => (a.AccountID, a.JWT))) ∧
    (↑(accs1.map preloadEntry) : Multiset String)
      = ↑(accs2.map preloadEntry) ∧
    (accs1 ≠ [] →
      RenderJWTAuthConfWithPreload op accs1
        = "operator: " ++ op ++ "\n\n"
          ++ preloadBlock (accs1.map preloadEntry)) := by
  subst hop; subst heq
  refine ⟨rfl, ?_, ?_, ?_⟩
  · exact Multiset.coe_eq_coe.2 (hperm.map _)
  · exact Multiset.coe_eq_coe.2 (hperm.map _)
  · intro hne
    match accs1, hne with
    | a :: rest, _ =>
        simp only [RenderJWTAuthConfWithPreload, preloadBlock,
          List.map_cons, List.length_cons, renderLines_eq_joinSep]
        rw [if_pos (Nat.succ_pos rest.length)]
        simp only [string_append_assoc]

/-- Witness for C7 at a two-account list and its swap. -/
theorem C7_preload_idempotent_and_order_independent_witness :
    (("O" : String) = "O") ∧
    (([⟨"a", "A", "ja"⟩, ⟨"b", "B", "jb"⟩] : List AccountJWT)
      = [⟨"a", "A", "ja"⟩, ⟨"b", "B", "jb"⟩]) ∧
    (([⟨"a", "A", "ja"⟩, ⟨"b", "B", "jb"⟩] : List AccountJWT).Perm
      [⟨"b", "B", "jb"⟩, ⟨"a", "A", "ja"⟩]) ∧
    (RenderJWTAuthConfWithPreload ("O")
        [⟨"a", "A", "ja"⟩, ⟨"b", "B", "jb"⟩]
      = RenderJWTAuthConfWithPreload ("O")
          [⟨"a", "A", "ja"⟩, ⟨"b", "B", "jb"⟩] ∧
    (↑(([⟨"a", "A", "ja"⟩, ⟨"b", "B", "jb"⟩] : List AccountJWT).map
        (fun a => (a.AccountID, a.JWT))) : Multiset (String × String))
      = ↑(([⟨"b", "B", "jb"⟩, ⟨"a", "A", "ja"⟩] : List AccountJWT).map
          (fun a => (a.AccountID, a.JWT))) ∧
    (↑(([⟨"a", "A", "ja"⟩, ⟨"b", "B", "jb"⟩] : List AccountJWT).map
        preloadEntry) : Multiset String)
      = ↑(([⟨"b", "B", "jb"⟩, ⟨"a", "A", "ja"⟩] : List AccountJWT).map
          preloadEntry) ∧
    (([⟨"a", "A", "ja"⟩, ⟨"b", "B", "jb"⟩] : List AccountJWT) ≠ [] →
      RenderJWTAuthConfWithPreload ("O")
          [⟨"a", "A", "ja"⟩, ⟨"b", "B", "jb"⟩]
        = "operator: " ++ "O" ++ "\n\n"
          ++ preloadBlock
              (([⟨"a", "A", "ja"⟩, ⟨"b", "B", "jb"⟩] :
        List AccountJWT).map preloadEntry))) :=
  ⟨rfl, rfl, by decide,
   C7_preload_idempotent_and_order_independent ("O") ("O")
     [⟨"a", "A", "ja"⟩, ⟨"b", "B", "jb"⟩]
     [⟨"b", "B", "jb"⟩, ⟨"a", "A", "ja"⟩]
     [⟨"a", "A", "ja"⟩, ⟨"b", "B", "jb"⟩]
     rfl rfl (by decide)⟩

/-! ### internal/resolver/writer.go

Kubernetes objects are modelled by their data maps: an association list
with Go-map semantics (assignment replaces the entry for an existing key,
otherwise appends), `Option.none` standing for an object that does not
exist.  A nil data map and an empty one behave identically in the source
(`make` followed by assignment), so both are the empty list. -/

/-- Data map of a ConfigMap or Secret. -/
abbrev StringMap := List (String × String)

/-- Go map read `m[k]` (with presence flag). -/
def mapLookup : StringMap → String → Option String
  | [], _ => none
  | (k2, v) :: rest, k => if k2 = k then some v else mapLookup rest k

/-- Go map assignment `m[k] = v`. -/
def mapInsert : StringMap → String → String → StringMap
  | [], k, v => [(k, v)]
  | (k2, v2) :: rest, k, v =>
      if k2 = k then (k2, v) :: rest else (k2, v2) :: mapInsert rest k v

/-- Go `writeToConfigMap` from `internal/resolver/writer.go`: a missing
ConfigMap is created with the single requested entry; an existing one has
the entry at the requested key set (creating its data map if nil). -/
def writeToConfigMap (existing : Option StringMap) (key content : String) :
    StringMap :=
  match existing with
  | none => [(key, content)]
  | some d => mapInsert d key content

/-- Go `writeToSecret` from `internal/resolver/writer.go`: same behavior as
`writeToConfigMap`, on a Secret. -/
def writeToSecret (existing : Option StringMap) (key content : String) :
    StringMap :=
  match existing with
  | none => [(key, content)]
  | some d => mapInsert d key content

/-- Go `WriteResolverConfig` from `internal/resolver/writer.go`: dispatches
on the configured target type. -/
def WriteResolverConfig (configType : String)
    (existing : Option StringMap) (key content : String) : StringMap :=
  if configType = "Secret" then writeToSecret existing key content
  else writeToConfigMap existing key content

theorem mapLookup_mapInsert_self (m : StringMap) (k v : String) :
    mapLookup (mapInsert m k v) k = some v := by
  induction m with
  | nil => simp [mapInsert, mapLookup]
  | cons h rest ih =>
      obtain ⟨k2, v2⟩ := h
      by_cases hk : k2 = k
      · simp [mapInsert, mapLookup, hk]
      · simp [mapInsert, mapLookup, hk, ih]

theorem mapLookup_mapInsert_ne (m : StringMap) (k v k2 : String)
    (h : k2 ≠ k) : mapLookup (mapInsert m k v) k2 = mapLookup m k2 := by
  induction m with
  | nil => simp [mapInsert, mapLookup, Ne.symm h]
  | cons hd rest ih =>
      obtain ⟨k3, v3⟩ := hd
      by_cases hk : k3 = k
      · subst hk
        have hne : ¬ k3 = k2 := fun hh => h hh.symm
        simp [mapInsert, mapLookup, hne]
      · by_cases hk2 : k3 = k2
        · subst hk2
          simp [mapInsert, mapLookup, hk]
        · simp [mapInsert, mapLookup, hk, hk2, ih]

/-! ### Claim C9 -/

/-- C9: writing the resolver configuration creates a missing target
object with exactly the one requested entry, and on an existing object
sets only the requested key, leaving every other data entry unchanged
(for ConfigMaps and Secrets alike). -/
theorem C9_writer_frame (d : StringMap) (key content other : String)
    (hother : other ≠ key) :
    writeToConfigMap none key content = [(key, content)] ∧
    writeToSecret none key content = [(key, content)] ∧
    mapLookup (writeToConfigMap (some d) key content) key = some content ∧
    mapLookup (writeToConfigMap (some d) key content) other
      = mapLookup d other ∧
    mapLookup (writeToSecret (some d) key content) key = some content ∧
    mapLookup (writeToSecret (some d) key content) other
      = mapLookup d other := by
  refine ⟨rfl, rfl, ?_, ?_, ?_, ?_⟩
  · exact mapLookup_mapInsert_self d key content
  · exact mapLookup_mapInsert_ne d key content other hother
  · exact mapLookup_mapInsert_self d key content
  · exact mapLookup_mapInsert_ne d key content other hother

/-- Witness for C9 on a two-entry data map. -/
theorem C9_writer_frame_witness :
    (("other" : String) ≠ "auth.conf") ∧
    (writeToConfigMap none ("auth.conf") ("cfg")
      = [("auth.conf", "cfg")] ∧
    writeToSecret none ("auth.conf") ("cfg") = [("auth.conf", "cfg")] ∧
    mapLookup (writeToConfigMap
        (some [("auth.conf", "old"), ("other", "keep")])
        ("auth.conf") ("cfg")) ("auth.conf") = some ("cfg") ∧
    mapLookup (writeToConfigMap
        (some [("auth.conf", "old"), ("other", "keep")])
        ("auth.conf") ("cfg")) ("other")
      = mapLookup [("auth.conf", "old"), ("other", "keep")] ("other") ∧
    mapLookup (writeToSecret
        (some [("auth.conf", "old"), ("other", "keep")])
        ("auth.conf") ("cfg")) ("auth.conf") = some ("cfg") ∧
    mapLookup (writeToSecret
        (some [("auth.conf", "old"), ("other", "keep")])
        ("auth.conf") ("cfg")) ("other")
      = mapLookup [("auth.conf", "old"), ("other", "keep")] ("other")) :=
  ⟨by decide,
   C9_writer_frame [("auth.conf", "old"), ("other", "keep")]
     ("auth.conf") ("cfg") ("other") (by decide)⟩

/-! ### NatsAccount reconciliation (internal/controller, part of the
controller package)

The reconcile step is embedded as a pure function over the state it
reads and writes.  Randomness (`nkeys.Create*`) is passed as explicit
entropy, the wall clock as `now`, and the Kubernetes API as explicit
records: the `<name>-account-jwt` secret the reconciler owns, the
external seed secrets it may read, and the operator seed it fetches via
`getOperatorSeed` (resolved here to the seed bytes the fetch would
return).  Transient API failures are outside the model: every read either
finds the object or reports not-found.  The `account.jwt` value of the
owned secret is the encoded token, kept structural (`SignedToken`);
an encoded token is never the empty string, so the `len(data) > 0` test of the source on it is `Option.isSome` here. -/

/-- Go `SecretRef` from `api/v1alpha1` (name and namespace). -/
structure SecretRefM where
  Name : String
  Namespace : String
deriving DecidableEq, Repr

/-- Declared state of a `NatsAccount` (the fields `reconcileAccount`
reads). -/
structure NatsAccountSpecM where
  Description : String
  Limits : Option AccountLimits
  ExistingSeedSecret : Option SecretRefM
deriving DecidableEq, Repr

/-- Status of a `NatsAccount` (the fields `reconcileAccount` reads and
writes). -/
structure NatsAccountStatusM where
  AccountID : String
  PublicKey : String
deriving DecidableEq, Repr

/-- Data of the owned `<name>-account-jwt` secret: the `account.jwt` and
`account.seed` entries. -/
structure AccountJWTSecretData where
  jwt : Option (SignedToken AccountClaims)
  seed : Bytes
deriving DecidableEq, Repr

/-- State visible to one account reconciliation: the owned JWT secret (if
it exists) and the account status. -/
structure AccountRecState where
  jwtSecret : Option AccountJWTSecretData
  status : NatsAccountStatusM
deriving DecidableEq, Repr

/-- Store of external seed secrets, keyed by reference; the value is the
`account.seed` entry of the secret when present. -/
abbrev SeedSecretStore := List (SecretRefM × Option Bytes)

/-- Lookup of an external secret by reference. -/
def seedStoreLookup : SeedSecretStore → SecretRefM → Option (Option Bytes)
  | [], _ => none
  | (r, v) :: rest, ref =>
      if r = ref then some v else seedStoreLookup rest ref

/-- Store writes an account reconciliation can perform. -/
inductive AccountWrite
  | createJWTSecret (data : AccountJWTSecretData)
  | updateJWTSecret (data : AccountJWTSecretData)
  | touchAuthConfig
deriving DecidableEq, Repr

/-- Go `getOrCreateAccountSeed` from the account controller: a declared
existing-seed secret takes precedence (missing secret or missing
`account.seed` entry is an error); otherwise a brand-new account keypair
is generated (from the explicit entropy) and its seed returned. -/
def getOrCreateAccountSeed (spec : NatsAccountSpecM)
    (ext : SeedSecretStore) (entropy : Bytes) : Except String Bytes :=
  match spec.ExistingSeedSecret with
  | some ref =>
      match seedStoreLookup ext ref with
      | none => Except.error ("failed to get account seed secret")
      | some none => Except.error ("account seed not found in secret")
      | some (some seed) => Except.ok seed
  | none =>
      match NewAccountManager [] entropy with
      | Except.error e => Except.error e
      | Except.ok mgr => Except.ok mgr.GetSeed

/-- Consistency guard of `reconcileAccount` (lines 150-172 of the account
controller): skip when the owned secret exists, the status public id is
recorded, both entries are non-empty, and the keypair re-derived from the
stored seed has exactly the status public id. -/
def accountGuardSkips (st : AccountRecState) : Bool :=
  match st.jwtSecret with
  | none => false
  | some d =>
      if st.status.AccountID ≠ "" ∧ d.jwt.isSome ∧ 0 < d.seed.length then
        match nkeysFromSeed d.seed with
        | Except.ok kp => decide (kp.publicKey = st.status.AccountID)
        | Except.error _ => false
      else false

/-- Go `reconcileAccount` from the account controller: runs the consistency
guard; when it does not skip, obtains a seed, rebuilds and re-signs the
account claims with the operator key, writes the owned secret (create or
update), updates the status to the derived public id and triggers an
aggregation reconcile of the auth config. -/
def reconcileAccount (name : String) (spec : NatsAccountSpecM)
    (ext : SeedSecretStore) (operatorSeed : Bytes) (entropy : Bytes)
    (now : Int) (st : AccountRecState) :
    Except String (AccountRecState × List AccountWrite) :=
  if accountGuardSkips st then Except.ok (st, [])
  else
    match getOrCreateAccountSeed spec ext entropy with
    | Except.error e => Except.error ("failed to get account seed: " ++ e)
    | Except.ok accountSeed =>
      match NewAccountManager accountSeed entropy with
      | Except.error e =>
          Except.error ("failed to create account manager: " ++ e)
      | Except.ok accountMgr =>
        let accountPubKey := accountMgr.GetPublicKey
        let accountClaims :=
          accountMgr.CreateAccountClaims name spec.Description
            spec.Limits now
        match NewOperatorManager operatorSeed entropy ("") now with
        | Except.error e =>
            Except.error ("failed to create operator manager: " ++ e)
        | Except.ok operatorMgr =>
          let accountJWT := operatorMgr.SignAccountJWT accountClaims
          let newData : AccountJWTSecretData :=
            { jwt := some accountJWT, seed := accountSeed }
          let write :=
            match st.jwtSecret with
            | none => AccountWrite.createJWTSecret newData
            | some _ => AccountWrite.updateJWTSecret newData
          Except.ok
            ({ jwtSecret := some newData,
               status := { AccountID := accountPubKey,
                           PublicKey := accountPubKey } },
             [write, AccountWrite.touchAuthConfig])

/-! ### Claim C2 -/

/-- C2 counterexample: a persisted credential record with seed
`[83, 65, 1]` exists, the status records the public id of a different
seed, no external seed reference is declared.  The claim says the next
reconciliation must re-derive from the stored seed; the code instead
generates a brand-new seed from fresh entropy `[9]` (yielding seed
`[83, 65, 9]`), discards the stored seed and records the new public id
in status. -/
theorem C2_stored_seed_discarded_counterexample :
    (reconcileAccount ("acct")
        { Description := "", Limits := none, ExistingSeedSecret := none }
        [] [83, 79, 5] [9] 0
        { jwtSecret := some
            { jwt := some (jwtEncode (newAccountClaims ("x"))
                ⟨[83, 65, 1]⟩),
              seed := [83, 65, 1] },
          status := { AccountID := KeyPair.publicKey ⟨[83, 65, 2]⟩,
                      PublicKey := KeyPair.publicKey ⟨[83, 65, 2]⟩ } }).map
        (fun r => (r.1.jwtSecret.map AccountJWTSecretData.seed,
                   r.1.status.AccountID))
      = Except.ok (some [83, 65, 9], KeyPair.publicKey ⟨[83, 65, 9]⟩) ∧
    ([83, 65, 9] : Bytes) ≠ [83, 65, 1] := by
  constructor
  · rfl
  · decide

/-- C2 amended: when a persisted record with a usable seed exists and the
public id derived from that seed differs from the status-recorded public
id, reconciliation does not reuse the stored seed: with no external seed
reference declared it generates a brand-new keypair from fresh entropy,
overwrites the record with the new seed and a token signed for it, and
updates the status to the new public id. -/
theorem C2_mismatch_regenerates_seed (name : String)
    (spec : NatsAccountSpecM) (ext : SeedSecretStore)
    (operatorSeed entropy : Bytes) (now : Int) (st : AccountRecState)
    (d : AccountJWTSecretData) (kp : KeyPair)
    (hsec : st.jwtSecret = some d)
    (hstat : st.status.AccountID ≠ "")
    (hjwt : d.jwt.isSome)
    (hseed : 0 < d.seed.length)
    (hfrom : nkeysFromSeed d.seed = Except.ok kp)
    (hmismatch : kp.publicKey ≠ st.status.AccountID)
    (hnoext : spec.ExistingSeedSecret = none)
    (hoplen : 0 < operatorSeed.length)
    (hopvalid : seedValid operatorSeed = true) :
    ∃ tok : SignedToken AccountClaims,
      reconcileAccount name spec ext operatorSeed entropy now st
        = Except.ok
            ({ jwtSecret := some
                 { jwt := some tok,
                   seed := (nkeysCreateAccount entropy).seed },
               status :=
                 { AccountID := (nkeysCreateAccount entropy).publicKey,
                   PublicKey :=
                     (nkeysCreateAccount entropy).publicKey } },
             [AccountWrite.updateJWTSecret
                { jwt := some tok,
                  seed := (nkeysCreateAccount entropy).seed },
              AccountWrite.touchAuthConfig]) := by
  have hguard : accountGuardSkips st = false := by
    simp [accountGuardSkips, hsec, hstat, hjwt, hseed, hfrom, hmismatch]
  have hfromOp : nkeysFromSeed operatorSeed = Except.ok ⟨operatorSeed⟩ := by
    simp [nkeysFromSeed, hopvalid]
  refine ⟨jwtEncode
    { (AccountManager.CreateAccountClaims ⟨nkeysCreateAccount entropy⟩
        name spec.Description spec.Limits now) with
      issuer := KeyPair.publicKey ⟨operatorSeed⟩ } ⟨operatorSeed⟩, ?_⟩
  simp only [reconcileAccount, hguard, Bool.false_eq_true, if_false,
    getOrCreateAccountSeed, hnoext, NewAccountManager,
    AccountManager.GetSeed, KeyPair.seed, nkeysCreateAccount,
    List.length_nil, lt_irrefl, if_neg, List.length_cons, if_pos,
    Nat.succ_pos, nkeysFromSeed, seedValid, List.headI, hsec]
  simp only [NewOperatorManager, if_pos hoplen, hfromOp,
    OperatorManager.SignAccountJWT, AccountManager.GetPublicKey,
    jwtEncode]
  simp [nkeysCreateAccount, seedValid, nkeysFromSeed]

/-- Witness for C2 amended at the counterexample state. -/
theorem C2_mismatch_regenerates_seed_witness :
    ((some { jwt := some (jwtEncode (newAccountClaims ("x"))
        ⟨[83, 65, 1]⟩), seed := [83, 65, 1] } :
        Option AccountJWTSecretData)
      = some { jwt := some (jwtEncode (newAccountClaims ("x"))
          ⟨[83, 65, 1]⟩), seed := [83, 65, 1] }) ∧
    (KeyPair.publicKey ⟨[83, 65, 2]⟩ ≠ "") ∧
    nkeysFromSeed [83, 65, 1] = Except.ok ⟨[83, 65, 1]⟩ ∧
    (KeyPair.publicKey ⟨[83, 65, 1]⟩
      ≠ KeyPair.publicKey ⟨[83, 65, 2]⟩) ∧
    seedValid [83, 79, 5] = true ∧
    (∃ tok : SignedToken AccountClaims,
      reconcileAccount ("acct")
          { Description := "", Limits := none,
            ExistingSeedSecret := none }
          [] [83, 79, 5] [9] 0
          { jwtSecret := some
              { jwt := some (jwtEncode (newAccountClaims ("x"))
                  ⟨[83, 65, 1]⟩),
                seed := [83, 65, 1] },
            status := { AccountID := KeyPair.publicKey ⟨[83, 65, 2]⟩,
                        PublicKey := KeyPair.publicKey ⟨[83, 65, 2]⟩ } }
        = Except.ok
            ({ jwtSecret := some
                 { jwt := some tok,
                   seed := (nkeysCreateAccount [9]).seed },
               status :=
                 { AccountID := (nkeysCreateAccount [9]).publicKey,
                   PublicKey := (nkeysCreateAccount [9]).publicKey } },
             [AccountWrite.updateJWTSecret
                { jwt := some tok,
                  seed := (nkeysCreateAccount [9]).seed },
              AccountWrite.touchAuthConfig])) :=
  ⟨rfl, by decide, rfl, by decide, by decide,
   C2_mismatch_regenerates_seed ("acct")
     { Description := "", Limits := none, ExistingSeedSecret := none }
     [] [83, 79, 5] [9] 0
     { jwtSecret := some
         { jwt := some (jwtEncode (newAccountClaims ("x"))
             ⟨[83, 65, 1]⟩),
           seed := [83, 65, 1] },
       status := { AccountID := KeyPair.publicKey ⟨[83, 65, 2]⟩,
                   PublicKey := KeyPair.publicKey ⟨[83, 65, 2]⟩ } }
     { jwt := some (jwtEncode (newAccountClaims ("x")) ⟨[83, 65, 1]⟩),
       seed := [83, 65, 1] }
     ⟨[83, 65, 1]⟩ rfl (by decide) (by decide) (by decide) rfl
     (by decide) rfl (by decide) (by decide)⟩

/-! ### NatsUser reconciliation, JWT mode (controller package)

Same modelling conventions as the account reconciler.  The value of the
`user.creds` entry is the credentials file `GenerateCredsFile` renders
from the user token and seed; it is kept structural as the pair
(token, seed) that determines it, and it is never empty when present, so
the `len(data) > 0` test of the source on it is `Option.isSome` here. -/

/-- Declared state of a `NatsUser` (fields `reconcileJWTUser` and
`reconcileTokenUser` read). -/
structure PasswordSourceM where
  Generate : Bool
  SecretRef : Option SecretRefM
deriving DecidableEq, Repr

/-- Declared state of a `NatsUser`. -/
structure NatsUserSpecM where
  AccountRef : Option SecretRefM
  Username : String
  PasswordFrom : Option PasswordSourceM
  Permissions : Option Permissions
  ExistingSeedSecret : Option SecretRefM
deriving DecidableEq, Repr

/-- Resolved view of the referenced `NatsAccount` (fields the user
reconciler reads): status public id and the status reference to the
account JWT secret (an empty name means unset). -/
structure NatsAccountResolvedM where
  StatusAccountID : String
  StatusJWTSecretRef : SecretRefM
deriving DecidableEq, Repr

/-- Data of an external user seed secret: `user.seed` is consulted first,
then `seed.nk`. -/
structure UserSeedSecretData where
  userSeed : Option Bytes
  seedNK : Option Bytes
deriving DecidableEq, Repr

/-- Store of external user seed secrets. -/
abbrev UserSeedStore := List (SecretRefM × UserSeedSecretData)

/-- Lookup in the user seed store. -/
def userSeedStoreLookup : UserSeedStore → SecretRefM →
    Option UserSeedSecretData
  | [], _ => none
  | (r, v) :: rest, ref =>
      if r = ref then some v else userSeedStoreLookup rest ref

/-- Store of account JWT secrets keyed by reference (for
`getAccountSeed`). -/
abbrev AccountSecretStore := List (SecretRefM × AccountJWTSecretData)

/-- Lookup in the account JWT secret store. -/
def accountSecretLookup : AccountSecretStore → SecretRefM →
    Option AccountJWTSecretData
  | [], _ => none
  | (r, v) :: rest, ref =>
      if r = ref then some v else accountSecretLookup rest ref

/-- Data of the owned `<name>-user-creds` secret in JWT mode. -/
structure UserCredsSecretData where
  creds : Option (SignedToken UserClaims × Bytes)
  jwt : Option (SignedToken UserClaims)
  natsURL : String
  seedNK : Bytes
deriving DecidableEq, Repr

/-- State visible to one JWT-user reconciliation. -/
structure UserRecState where
  credsSecret : Option UserCredsSecretData
  statusPublicKey : String
deriving DecidableEq, Repr

/-- Store writes a JWT-user reconciliation can perform. -/
inductive UserWrite
  | createCreds (data : UserCredsSecretData)
  | updateCreds (data : UserCredsSecretData)
deriving DecidableEq, Repr

/-- Go `getOrCreateUserSeed` from the user controller: a declared seed
secret takes precedence (`user.seed`, then `seed.nk`; neither present is
an error); otherwise a brand-new user keypair is generated. -/
def getOrCreateUserSeed (spec : NatsUserSpecM) (ext : UserSeedStore)
    (entropy : Bytes) : Except String Bytes :=
  match spec.ExistingSeedSecret with
  | some ref =>
      match userSeedStoreLookup ext ref with
      | none => Except.error ("failed to get user seed secret")
      | some d =>
          match d.userSeed with
          | some s => Except.ok s
          | none =>
              match d.seedNK with
              | some s => Except.ok s
              | none => Except.error ("user seed not found in secret")
  | none =>
      match NewUserManager [] entropy with
      | Except.error e => Except.error e
      | Except.ok mgr => Except.ok mgr.GetSeed

/-- Go `getAccountSeed` from the user controller: requires the account
status to reference the account JWT secret and that secret to hold a
non-empty `account.seed` entry. -/
def getAccountSeed (account : NatsAccountResolvedM)
    (store : AccountSecretStore) : Except String Bytes :=
  if account.StatusJWTSecretRef.Name = "" then
    Except.error ("account JWT secret not ready")
  else
    match accountSecretLookup store account.StatusJWTSecretRef with
    | none => Except.error ("failed to get account JWT secret")
    | some d =>
        if 0 < d.seed.length then Except.ok d.seed
        else Except.error ("account seed not found in secret")

/-- Skip guard of `reconcileJWTUser` (lines 577-590 of the user
controller): skip when the creds secret exists, the status public key is
recorded and the `user.creds` entry is non-empty.  The stored seed is not
re-derived and the declared permissions are not compared. -/
def userGuardSkips (st : UserRecState) : Bool :=
  match st.credsSecret with
  | none => false
  | some d => decide (st.statusPublicKey ≠ "") && d.creds.isSome

/-- Go `reconcileJWTUser` from the user controller: validates the account
reference and readiness, runs the skip guard, otherwise obtains a user
seed, builds user claims, signs them with the account key, writes the
creds secret (create or update) and records the user public key in
status. -/
def reconcileJWTUser (resourceName : String) (spec : NatsUserSpecM)
    (natsURL : String) (account : Option NatsAccountResolvedM)
    (acctStore : AccountSecretStore) (userSeeds : UserSeedStore)
    (entropy : Bytes) (now : Int) (st : UserRecState) :
    Except String (UserRecState × List UserWrite) :=
  match spec.AccountRef with
  | none => Except.error ("accountRef is required for JWT mode")
  | some _ =>
    match account with
    | none => Except.error ("failed to get NatsAccount")
    | some acct =>
      if acct.StatusAccountID = "" then
        Except.error ("NatsAccount is not ready yet")
      else if userGuardSkips st then Except.ok (st, [])
      else
        match getOrCreateUserSeed spec userSeeds entropy with
        | Except.error e => Except.error ("failed to get user seed: " ++ e)
        | Except.ok userSeed =>
          match NewUserManager userSeed entropy with
          | Except.error e =>
              Except.error ("failed to create user manager: " ++ e)
          | Except.ok userMgr =>
            let userPubKey := userMgr.GetPublicKey
            let userName :=
              if spec.Username ≠ "" then spec.Username else resourceName
            let userClaims :=
              userMgr.CreateUserClaims userName spec.Permissions now
            match getAccountSeed acct acctStore with
            | Except.error e =>
                Except.error ("failed to get account seed: " ++ e)
            | Except.ok accountSeed =>
              match NewAccountManager accountSeed entropy with
              | Except.error e =>
                  Except.error ("failed to create account manager: " ++ e)
              | Except.ok accountMgr =>
                let userJWT := accountMgr.SignUserJWT userClaims
                let newData : UserCredsSecretData :=
                  { creds := some (userJWT, userSeed),
                    jwt := some userJWT,
                    natsURL := natsURL,
                    seedNK := userSeed }
                let write :=
                  match st.credsSecret with
                  | none => UserWrite.createCreds newData
                  | some _ => UserWrite.updateCreds newData
                Except.ok
                  ({ credsSecret := some newData,
                     statusPublicKey := userPubKey }, [write])

/-! ### Claim C3 -/

/-- Fixture: a token signed for the stored account seed carrying the
previously declared description. -/
def c3Tok : SignedToken AccountClaims :=
  jwtEncode
    { newAccountClaims (KeyPair.publicKey ⟨[83, 65, 1]⟩) with
      description := "old" }
    ⟨[83, 79, 5]⟩

/-- Fixture: the persisted account JWT secret. -/
def c3AcctData : AccountJWTSecretData :=
  { jwt := some c3Tok, seed := [83, 65, 1] }

/-- Fixture: a consistent account state (status id equals the public id
derived from the stored seed). -/
def c3AcctState : AccountRecState :=
  { jwtSecret := some c3AcctData,
    status := { AccountID := KeyPair.publicKey ⟨[83, 65, 1]⟩,
                PublicKey := KeyPair.publicKey ⟨[83, 65, 1]⟩ } }

/-- Fixture: the changed declared state (description "old" → "new"). -/
def c3NewSpec : NatsAccountSpecM :=
  { Description := "new", Limits := none, ExistingSeedSecret := none }

/-- Fixture: the persisted user token. -/
def c3UserTok : SignedToken UserClaims :=
  jwtEncode (newUserClaims ("U")) ⟨[83, 65, 1]⟩

/-- Fixture: the persisted user creds secret. -/
def c3UserData : UserCredsSecretData :=
  { creds := some (c3UserTok, [83, 85, 3]), jwt := some c3UserTok,
    natsURL := "nats://n", seedNK := [83, 85, 3] }

/-- Fixture: a user state with recorded status and persisted creds. -/
def c3UserState : UserRecState :=
  { credsSecret := some c3UserData, statusPublicKey := "UPK" }

/-- Fixture: a user spec with freshly changed permissions and username. -/
def c3UserSpec : NatsUserSpecM :=
  { AccountRef := some { Name := "prod", Namespace := "ns" },
    Username := "svc2", PasswordFrom := none,
    Permissions := some
      { PublishAllow := ["orders.>"], PublishDeny := [],
        SubscribeAllow := [], SubscribeDeny := [] },
    ExistingSeedSecret := none }

/-- Fixture: the resolved parent account of the user. -/
def c3Acct : NatsAccountResolvedM :=
  { StatusAccountID := "AC1",
    StatusJWTSecretRef := { Name := "prod-account-jwt",
                            Namespace := "ns" } }

/-- C3 counterexample: an account whose credential record and status
exist and are mutually consistent holds a token whose description is
"old"; the declared description changes to "new".  The claim says the
next reconciliation re-signs the token to reflect the new desired state;
the consistency guard of the code skips entirely, leaving the stale token in
place (still "old") and performing no write. -/
theorem C3_stale_token_counterexample :
    reconcileAccount ("acct") c3NewSpec [] [83, 79, 5] [9] 0 c3AcctState
      = Except.ok (c3AcctState, []) ∧
    ((c3AcctState.jwtSecret.bind AccountJWTSecretData.jwt).map
        (fun t => t.claims.description)) = some ("old") ∧
    c3NewSpec.Description = "new" ∧ (("old" : String) ≠ "new") := by
  refine ⟨rfl, rfl, rfl, ?_⟩
  decide

/-- C3 amended: while the credential record and status exist and pass the
consistency check of the code (account: the seed-derived public id equals the
status id; user: non-empty creds entry together with non-empty status
public key), the next reconciliation skips entirely for any declared
state: the token is left unchanged, no store write happens, and the
public id stays unchanged.  Declared-state changes alone do not trigger
a re-sign. -/
theorem C3_consistent_record_skips_resign (name : String)
    (spec : NatsAccountSpecM) (ext : SeedSecretStore)
    (operatorSeed entropy : Bytes) (now : Int) (st : AccountRecState)
    (d : AccountJWTSecretData) (kp : KeyPair)
    (resourceName : String) (specU : NatsUserSpecM) (natsURL : String)
    (acct : NatsAccountResolvedM) (acctStore : AccountSecretStore)
    (userSeeds : UserSeedStore) (entropyU : Bytes) (nowU : Int)
    (stU : UserRecState) (dU : UserCredsSecretData) (ref : SecretRefM)
    (hsec : st.jwtSecret = some d)
    (hstat : st.status.AccountID ≠ "")
    (hjwt : d.jwt.isSome)
    (hseed : 0 < d.seed.length)
    (hfrom : nkeysFromSeed d.seed = Except.ok kp)
    (hmatch : kp.publicKey = st.status.AccountID)
    (href : specU.AccountRef = some ref)
    (hacct : acct.StatusAccountID ≠ "")
    (hsecU : stU.credsSecret = some dU)
    (hstatU : stU.statusPublicKey ≠ "")
    (hcreds : dU.creds.isSome) :
    reconcileAccount name spec ext operatorSeed entropy now st
      = Except.ok (st, []) ∧
    reconcileJWTUser resourceName specU natsURL (some acct) acctStore
        userSeeds entropyU nowU stU
      = Except.ok (stU, []) := by
  constructor
  · have hguard : accountGuardSkips st = true := by
      simp [accountGuardSkips, hsec, hstat, hjwt, hseed, hfrom, hmatch]
    simp [reconcileAccount, hguard]
  · have hguardU : userGuardSkips stU = true := by
      simp [userGuardSkips, hsecU, hstatU, hcreds]
    simp [reconcileJWTUser, href, hacct, hguardU]

/-- Witness for C3 amended at the concrete fixture states: the account
with changed description and the user with changed permissions are both
skipped, with no writes. -/
theorem C3_consistent_record_skips_resign_witness :
    c3AcctState.jwtSecret = some c3AcctData ∧
    nkeysFromSeed c3AcctData.seed = Except.ok ⟨[83, 65, 1]⟩ ∧
    KeyPair.publicKey ⟨[83, 65, 1]⟩ = c3AcctState.status.AccountID ∧
    c3UserSpec.AccountRef = some { Name := "prod", Namespace := "ns" } ∧
    c3UserState.credsSecret = some c3UserData ∧
    (reconcileAccount ("acct") c3NewSpec [] [83, 79, 5] [9] 0 c3AcctState
        = Except.ok (c3AcctState, []) ∧
      reconcileJWTUser ("svc") c3UserSpec ("nats://n") (some c3Acct)
          [] [] [4] 0 c3UserState
        = Except.ok (c3UserState, [])) :=
  ⟨rfl, rfl, rfl, rfl, rfl,
   C3_consistent_record_skips_resign ("acct") c3NewSpec []
     [83, 79, 5] [9] 0 c3AcctState c3AcctData ⟨[83, 65, 1]⟩
     ("svc") c3UserSpec ("nats://n") c3Acct [] [] [4] 0
     c3UserState c3UserData { Name := "prod", Namespace := "ns" }
     rfl (by decide) rfl (by decide) rfl rfl rfl (by decide) rfl
     (by decide) rfl⟩

/-! ### NatsUser reconciliation, token (flat) mode

`internal/token/generator.go` draws randomness for usernames and
passwords; the model passes that randomness as explicit entropy strings
(the generated suffix, the generated password).  The owned
`<name>-user-creds` secret holds the USERNAME, PASSWORD and NATS_URL
entries; the operator always writes all three, so the read-back secret is
modelled with those fields present (a missing entry reads as ""). -/

/-- Go `GenerateUsername` from `internal/token/generator.go`: declared
prefix (defaulting to "user") joined with a freshly random suffix. -/
def GenerateUsername (pfx suffixEntropy : String) : String :=
  (if pfx = "" then "user" else pfx) ++ "-" ++ suffixEntropy

/-- Go `GeneratePassword` from `internal/token/generator.go`: a freshly
random string, passed as explicit entropy. -/
def GeneratePassword (entropy : String) : String := entropy

/-- Store of external password secrets. -/
abbrev PasswordSecretStore := List (SecretRefM × StringMap)

/-- Lookup in the password secret store. -/
def pwSecretLookup : PasswordSecretStore → SecretRefM → Option StringMap
  | [], _ => none
  | (r, v) :: rest, ref =>
      if r = ref then some v else pwSecretLookup rest ref

/-- Data of the owned `<name>-user-creds` secret in token mode. -/
structure TokenCredsData where
  username : String
  password : String
  natsURL : String
deriving DecidableEq, Repr

/-- State visible to one token-user reconciliation. -/
structure TokenUserState where
  credsSecret : Option TokenCredsData
deriving DecidableEq, Repr

/-- Store writes a token-user reconciliation can perform. -/
inductive TokenUserWrite
  | createCreds (data : TokenCredsData)
  | updateCreds (data : TokenCredsData)
deriving DecidableEq, Repr

/-- Secret create/update step of `reconcileTokenUser` (lines 751-772 of
the user controller): create when missing; update only when the stored
username or password differs from the freshly computed ones. -/
def tokenUserFinish (username password natsURL : String)
    (st : TokenUserState) : TokenUserState × List TokenUserWrite :=
  let newData : TokenCredsData :=
    { username := username, password := password, natsURL := natsURL }
  match st.credsSecret with
  | none =>
      ({ credsSecret := some newData },
       [TokenUserWrite.createCreds newData])
  | some existing =>
      if existing.username ≠ username ∨ existing.password ≠ password then
        ({ credsSecret := some newData },
         [TokenUserWrite.updateCreds newData])
      else (st, [])

/-- Go `reconcileTokenUser` from the user controller: resolves a username
(declared, or generated with a random suffix) and a password (generated
when `passwordFrom.generate` is set or `passwordFrom` is absent; read
from the `password` entry of the referenced secret when a secret reference is
given; left at the zero value "" when `passwordFrom` is present with
neither), then persists USERNAME/PASSWORD/NATS_URL. -/
def reconcileTokenUser (resourceName : String) (spec : NatsUserSpecM)
    (natsURL : String) (pwStore : PasswordSecretStore)
    (usernameEntropy passwordEntropy : String) (st : TokenUserState) :
    Except String (TokenUserState × List TokenUserWrite) :=
  let username :=
    if spec.Username ≠ "" then spec.Username
    else GenerateUsername resourceName usernameEntropy
  let passwordE : Except String String :=
    match spec.PasswordFrom with
    | some pf =>
        if pf.Generate then Except.ok (GeneratePassword passwordEntropy)
        else
          match pf.SecretRef with
          | some ref =>
              match pwSecretLookup pwStore ref with
              | none => Except.error ("failed to get password secret")
              | some data =>
                  Except.ok ((mapLookup data ("password")).getD (""))
          | none => Except.ok ("")
    | none => Except.ok (GeneratePassword passwordEntropy)
  match passwordE with
  | Except.error e => Except.error e
  | Except.ok password =>
      Except.ok (tokenUserFinish username password natsURL st)

theorem tokenUserFinish_password (username password natsURL : String)
    (st : TokenUserState) :
    ((tokenUserFinish username password natsURL st).1.credsSecret.map
      TokenCredsData.password) = some password := by
  match h : st.credsSecret with
  | none => simp [tokenUserFinish, h]
  | some existing =>
      by_cases hne : existing.username ≠ username
        ∨ existing.password ≠ password
      · simp [tokenUserFinish, h, hne]
      · push_neg at hne
        simp [tokenUserFinish, h, hne.1, hne.2]

/-! ### Claim C4 -/

/-- Fixture: a flat user with declared username and generated password. -/
def c4Spec : NatsUserSpecM :=
  { AccountRef := none, Username := "u",
    PasswordFrom := some { Generate := true, SecretRef := none },
    Permissions := none, ExistingSeedSecret := none }

/-- Fixture: the state a previous, identical reconcile persisted (its
password entropy was "p1"). -/
def c4PrevState : TokenUserState :=
  { credsSecret := some
      { username := "u", password := "p1", natsURL := "nats://n" } }

/-- C4: reconciling the unchanged flat user a second time over the intact
store performs a store write after all: the code draws a fresh random
password ("p2") before its only-update-if-changed comparison, so the
comparison always sees a difference and the secret is rewritten, rotating
the generated password on every reconcile.  This contradicts the own guard of the code (and the spec); the evaluation documents the failing input. -/
theorem C4_second_reconcile_writes_and_rotates_password :
    reconcileTokenUser ("pub") c4Spec ("nats://n") [] ("sfx") ("p2")
        c4PrevState
      = Except.ok
          ({ credsSecret := some
               { username := "u", password := "p2",
                 natsURL := "nats://n" } },
           [TokenUserWrite.updateCreds
              { username := "u", password := "p2",
                natsURL := "nats://n" }]) ∧
    (("p2" : String) ≠ "p1") := by
  refine ⟨rfl, ?_⟩
  decide

/-! ### Claim C10 -/

/-- C10: a flat user whose `passwordFrom` is present with
`generate = false` and no secret reference, or whose referenced password
secret lacks a `password` entry, reconciles without error and the
persisted credentials record carries the empty string as password. -/
theorem C10_absent_password_source_persists_empty_password
    (resourceName : String) (spec : NatsUserSpecM) (natsURL : String)
    (pwStore : PasswordSecretStore) (ue pe : String)
    (st : TokenUserState) (pf : PasswordSourceM)
    (hpf : spec.PasswordFrom = some pf)
    (hgen : pf.Generate = false) :
    (pf.SecretRef = none →
      ∃ stw, reconcileTokenUser resourceName spec natsURL pwStore ue pe st
          = Except.ok stw ∧
        (stw.1.credsSecret.map TokenCredsData.password) = some ("")) ∧
    (∀ ref data, pf.SecretRef = some ref →
      pwSecretLookup pwStore ref = some data →
      mapLookup data ("password") = none →
      ∃ stw, reconcileTokenUser resourceName spec natsURL pwStore ue pe st
          = Except.ok stw ∧
        (stw.1.credsSecret.map TokenCredsData.password) = some ("")) := by
  constructor
  · intro href
    refine ⟨tokenUserFinish
      (if spec.Username ≠ "" then spec.Username
        else GenerateUsername resourceName ue) ("") natsURL st, ?_, ?_⟩
    · simp [reconcileTokenUser, hpf, hgen, href]
    · exact tokenUserFinish_password _ ("") natsURL st
  · intro ref data href hlook hnokey
    refine ⟨tokenUserFinish
      (if spec.Username ≠ "" then spec.Username
        else GenerateUsername resourceName ue) ("") natsURL st, ?_, ?_⟩
    · simp [reconcileTokenUser, hpf, hgen, href, hlook, hnokey]
    · exact tokenUserFinish_password _ ("") natsURL st

/-- Fixture: flat user spec with generate false and no secret ref. -/
def c10SpecNone : NatsUserSpecM :=
  { AccountRef := none, Username := "u",
    PasswordFrom := some { Generate := false, SecretRef := none },
    Permissions := none, ExistingSeedSecret := none }

/-- Fixture: referenced password secret. -/
def c10Ref : SecretRefM := { Name := "pw", Namespace := "ns" }

/-- Fixture: flat user spec referencing a password secret. -/
def c10SpecRef : NatsUserSpecM :=
  { AccountRef := none, Username := "u",
    PasswordFrom := some { Generate := false,
                           SecretRef := some c10Ref },
    Permissions := none, ExistingSeedSecret := none }

/-- Fixture: the data of the referenced secret, lacking a `password` entry. -/
def c10Data : StringMap := [("other", "x")]

/-- Witness for C10: both the no-secret-ref shape and the
missing-password-entry shape succeed and persist an empty password. -/
theorem C10_absent_password_source_persists_empty_password_witness :
    c10SpecNone.PasswordFrom
      = some { Generate := false, SecretRef := none } ∧
    (∃ stw, reconcileTokenUser ("pub") c10SpecNone ("nats://n") []
        ("s") ("p") { credsSecret := none }
      = Except.ok stw ∧
      (stw.1.credsSecret.map TokenCredsData.password) = some ("")) ∧
    c10SpecRef.PasswordFrom
      = some { Generate := false, SecretRef := some c10Ref } ∧
    (∃ stw, reconcileTokenUser ("pub") c10SpecRef ("nats://n")
        [(c10Ref, c10Data)] ("s") ("p") { credsSecret := none }
      = Except.ok stw ∧
      (stw.1.credsSecret.map TokenCredsData.password) = some ("")) :=
  ⟨rfl,
   (C10_absent_password_source_persists_empty_password ("pub")
     c10SpecNone ("nats://n") [] ("s") ("p") { credsSecret := none }
     { Generate := false, SecretRef := none } rfl rfl).1 rfl,
   rfl,
   (C10_absent_password_source_persists_empty_password ("pub")
     c10SpecRef ("nats://n") [(c10Ref, c10Data)] ("s") ("p")
     { credsSecret := none }
     { Generate := false, SecretRef := some c10Ref } rfl rfl).2
     c10Ref c10Data rfl (by simp [pwSecretLookup]) rfl⟩

/-! ### NatsAuthConfig reconciliation, JWT mode
(internal/controller/natsauthconfig_controller.go)

The aggregate secret maps string keys to tokens; operator and account
tokens have different claim types, so the value side is a tagged sum.
Go map semantics are the same insert-or-replace association list as for
the resolver writer. -/

/-- Go `OperatorSeedSecretRef` from `api/v1alpha1` (name, namespace, key). -/
structure OperatorSeedSecretRefM where
  Name : String
  Namespace : String
  Key : String
deriving DecidableEq, Repr

/-- Go `JWTConfig` fields `reconcileJWTMode` reads. -/
structure JWTConfigM where
  OperatorSeedSecret : Option OperatorSeedSecretRefM
  OperatorName : String
deriving DecidableEq, Repr

/-- Go `NatsAuthConfig` fields `reconcileJWTMode` reads. -/
structure NatsAuthConfigM where
  name : String
  resNamespace : String
  JWT : JWTConfigM
deriving DecidableEq, Repr

/-- View of a `NatsAccount` as listed by `collectAccountJWTs`: resource
name, the name of the auth config it references, and its status public
id. -/
structure AccountResM where
  name : String
  authConfigRefName : String
  statusAccountID : String
deriving DecidableEq, Repr

/-- Go `authconf.AccountJWT` as collected by the controller (the token kept
structural). -/
structure CollectedAccountJWT where
  AccountName : String
  AccountID : String
  JWT : SignedToken AccountClaims
deriving DecidableEq, Repr

/-- Store of account JWT secrets in the auth config namespace, keyed by
secret name. -/
abbrev NamedAccountSecretStore := List (String × AccountJWTSecretData)

/-- Lookup by secret name. -/
def acctJWTSecretLookup : NamedAccountSecretStore → String →
    Option AccountJWTSecretData
  | [], _ => none
  | (n, v) :: rest, key =>
      if n = key then some v else acctJWTSecretLookup rest key

/-- Store of generic byte-map secrets keyed by (namespace, name), used
for the operator seed secret. -/
abbrev OpSeedStore := List ((String × String) × List (String × Bytes))

/-- Lookup of a secret by namespace and name. -/
def opSeedStoreLookup : OpSeedStore → String → String →
    Option (List (String × Bytes))
  | [], _, _ => none
  | (k, v) :: rest, ns, n =>
      if k = (ns, n) then some v else opSeedStoreLookup rest ns n

/-- Lookup of an entry in a byte-map secret (with presence flag). -/
def bytesMapLookup : List (String × Bytes) → String → Option Bytes
  | [], _ => none
  | (k, v) :: rest, key =>
      if k = key then some v else bytesMapLookup rest key

/-- Value of one entry of the aggregate JWT secret. -/
inductive AggToken
  | operatorTok (t : SignedToken OperatorClaims)
  | accountTok (t : SignedToken AccountClaims)
deriving DecidableEq, Repr

/-- Data of the aggregate JWT secret. -/
abbrev AggSecretData := List (String × AggToken)

/-- Go map read on the aggregate secret data. -/
def aggLookup : AggSecretData → String → Option AggToken
  | [], _ => none
  | (k, v) :: rest, key =>
      if k = key then some v else aggLookup rest key

/-- Go map assignment on the aggregate secret data. -/
def aggInsert : AggSecretData → String → AggToken → AggSecretData
  | [], key, v => [(key, v)]
  | (k, v2) :: rest, key, v =>
      if k = key then (k, v) :: rest else (k, v2) :: aggInsert rest key v

/-- Store writes a JWT-mode auth config reconciliation can perform. -/
inductive AuthConfigWrite
  | createOperatorSeedSecret (seed : Bytes)
  | createAggSecret (data : AggSecretData)
  | updateAggSecret (data : AggSecretData)
deriving DecidableEq, Repr

/-- Go `getOrCreateOperatorSeed` from the auth config controller: a declared
operator seed secret is read (key defaulting to `operator.seed`; missing
secret or key is an error); otherwise a fresh operator keypair is
generated and its seed persisted in `<name>-operator-seed`, re-reading
the secret if it already exists. -/
def getOrCreateOperatorSeed (cfg : NatsAuthConfigM) (store : OpSeedStore)
    (entropy : Bytes) : Except String (Bytes × List AuthConfigWrite) :=
  match cfg.JWT.OperatorSeedSecret with
  | some ref =>
      match opSeedStoreLookup store ref.Namespace ref.Name with
      | none => Except.error ("failed to get operator seed secret")
      | some data =>
          let seedKey := if ref.Key = "" then "operator.seed" else ref.Key
          match bytesMapLookup data seedKey with
          | none =>
              Except.error ("operator seed key not found in secret")
          | some seed => Except.ok (seed, [])
  | none =>
      let seed := (nkeysCreateOperator entropy).seed
      match opSeedStoreLookup store cfg.resNamespace
          (cfg.name ++ "-operator-seed") with
      | some data =>
          Except.ok ((bytesMapLookup data ("operator.seed")).getD [], [])
      | none =>
          Except.ok (seed,
            [AuthConfigWrite.createOperatorSeedSecret seed])

/-- Go `collectAccountJWTs` from the auth config controller: walks all
accounts of the namespace, keeps those referencing this auth config whose
`<name>-account-jwt` secret exists with an `account.jwt` entry and whose
status records a public id; the others are skipped (never an error). -/
def collectAccountJWTs (authConfigName : String)
    (accounts : List AccountResM) (secrets : NamedAccountSecretStore) :
    List CollectedAccountJWT :=
  match accounts with
  | [] => []
  | a :: rest =>
      let tail := collectAccountJWTs authConfigName rest secrets
      if a.authConfigRefName = authConfigName then
        match acctJWTSecretLookup secrets (a.name ++ "-account-jwt") with
        | none => tail
        | some d =>
            match d.jwt with
            | none => tail
            | some t =>
                if a.statusAccountID = "" then tail
                else ⟨a.name, a.statusAccountID, t⟩ :: tail
      else tail

/-- Aggregate secret data built by `reconcileJWTMode` (lines 182-191):
the operator token under the key `operator`, then one entry per collected
account keyed by the account resource name. -/
def buildJWTSecretData (opJWT : SignedToken OperatorClaims)
    (accounts : List CollectedAccountJWT) : AggSecretData :=
  accounts.foldl
    (fun m acc =>
      aggInsert m acc.AccountName (AggToken.accountTok acc.JWT))
    [("operator", AggToken.operatorTok opJWT)]

/-- Go `reconcileJWTMode` from the auth config controller: obtains the
operator seed, rebuilds the self-signed operator token, collects the
account tokens and creates or replaces the aggregate secret with exactly
the built data.  Failures propagate as in the source (the Go error-wrap
prefixes on the messages are dropped as immaterial). -/
def reconcileJWTMode (cfg : NatsAuthConfigM) (opStore : OpSeedStore)
    (accounts : List AccountResM) (acctSecrets : NamedAccountSecretStore)
    (aggExisting : Option AggSecretData) (entropy : Bytes) (now : Int) :
    Except String (AggSecretData × List AuthConfigWrite) :=
  (getOrCreateOperatorSeed cfg opStore entropy).bind (fun seedWrites =>
    let operatorName :=
      if cfg.JWT.OperatorName ≠ "" then cfg.JWT.OperatorName
      else "NATS Operator"
    (NewOperatorManager seedWrites.1 entropy operatorName now).bind
      (fun operatorMgr =>
        let collected := collectAccountJWTs cfg.name accounts acctSecrets
        let secretData := buildJWTSecretData operatorMgr.GetJWT collected
        let write :=
          match aggExisting with
          | none => AuthConfigWrite.createAggSecret secretData
          | some _ => AuthConfigWrite.updateAggSecret secretData
        Except.ok (secretData, seedWrites.2 ++ [write])))

theorem except_bind_ok {E A B : Type} (e : Except E A)
    (f : A → Except E B) (b : B) (h : e.bind f = Except.ok b) :
    ∃ a, e = Except.ok a ∧ f a = Except.ok b := by
  cases e with
  | error x => simp [Except.bind] at h
  | ok a => exact ⟨a, rfl, by simpa [Except.bind] using h⟩

theorem aggLookup_aggInsert_self (m : AggSecretData) (k : String)
    (v : AggToken) : aggLookup (aggInsert m k v) k = some v := by
  induction m with
  | nil => simp [aggInsert, aggLookup]
  | cons h rest ih =>
      obtain ⟨k2, v2⟩ := h
      by_cases hk : k2 = k
      · simp [aggInsert, aggLookup, hk]
      · simp [aggInsert, aggLookup, hk, ih]

theorem aggLookup_aggInsert_ne (m : AggSecretData) (k : String)
    (v : AggToken) (k2 : String) (h : k2 ≠ k) :
    aggLookup (aggInsert m k v) k2 = aggLookup m k2 := by
  induction m with
  | nil => simp [aggInsert, aggLookup, Ne.symm h]
  | cons hd rest ih =>
      obtain ⟨k3, v3⟩ := hd
      by_cases hk : k3 = k
      · subst hk
        have hne : ¬ k3 = k2 := fun hh => h hh.symm
        simp [aggInsert, aggLookup, hne]
      · by_cases hk2 : k3 = k2
        · subst hk2
          simp [aggInsert, aggLookup, hk]
        · simp [aggInsert, aggLookup, hk, hk2, ih]

theorem aggLookup_fold_frame (items : List CollectedAccountJWT)
    (init : AggSecretData) (k : String)
    (h : ∀ c ∈ items, c.AccountName ≠ k) :
    aggLookup (items.foldl
      (fun m acc =>
        aggInsert m acc.AccountName (AggToken.accountTok acc.JWT))
      init) k = aggLookup init k := by
  induction items generalizing init with
  | nil => rfl
  | cons c rest ih =>
      have hc : c.AccountName ≠ k := h c (List.mem_cons_self c rest)
      have hrest : ∀ x ∈ rest, x.AccountName ≠ k :=
        fun x hx => h x (List.mem_cons_of_mem c hx)
      simp only [List.foldl_cons]
      rw [ih _ hrest, aggLookup_aggInsert_ne _ _ _ _ (Ne.symm hc)]

theorem aggLookup_fold_mem (items : List CollectedAccountJWT)
    (init : AggSecretData) (c : CollectedAccountJWT)
    (hnd : (items.map CollectedAccountJWT.AccountName).Nodup)
    (hc : c ∈ items) :
    aggLookup (items.foldl
      (fun m acc =>
        aggInsert m acc.AccountName (AggToken.accountTok acc.JWT))
      init) c.AccountName = some (AggToken.accountTok c.JWT) := by
  induction items generalizing init with
  | nil => cases hc
  | cons hd rest ih =>
      simp only [List.map_cons, List.nodup_cons] at hnd
      rcases List.mem_cons.1 hc with hceq | hcrest
      · subst hceq
        simp only [List.foldl_cons]
        have hfr : ∀ x ∈ rest, x.AccountName ≠ c.AccountName := by
          intro x hx hxeq
          exact hnd.1 (hxeq ▸ List.mem_map_of_mem
            CollectedAccountJWT.AccountName hx)
        rw [aggLookup_fold_frame rest _ _ hfr,
          aggLookup_aggInsert_self]
      · simp only [List.foldl_cons]
        exact ih _ hnd.2 hcrest

theorem collect_names_sublist (n : String) (accounts : List AccountResM)
    (secrets : NamedAccountSecretStore) :
    ((collectAccountJWTs n accounts secrets).map
      CollectedAccountJWT.AccountName).Sublist
      (accounts.map AccountResM.name) := by
  induction accounts with
  | nil => simp [collectAccountJWTs]
  | cons a rest ih =>
      simp only [collectAccountJWTs, List.map_cons]
      split
      · split
        · exact ih.cons _
        · split
          · exact ih.cons _
          · split
            · exact ih.cons _
            · simp only [List.map_cons]
              exact ih.cons₂ _
      · exact ih.cons _

theorem collect_of_persisted (n : String) (accounts : List AccountResM)
    (secrets : NamedAccountSecretStore) (a : AccountResM)
    (t : SignedToken AccountClaims)
    (ha : a ∈ accounts) (href : a.authConfigRefName = n)
    (hjwt : (acctJWTSecretLookup secrets
      (a.name ++ "-account-jwt")).bind AccountJWTSecretData.jwt = some t)
    (hstat : a.statusAccountID ≠ "") :
    (⟨a.name, a.statusAccountID, t⟩ : CollectedAccountJWT)
      ∈ collectAccountJWTs n accounts secrets := by
  induction accounts with
  | nil => cases ha
  | cons b rest ih =>
      simp only [collectAccountJWTs]
      rcases List.mem_cons.1 ha with hab | harest
      · subst hab
        split
        · split
          · rename_i heq
            rw [heq] at hjwt
            simp at hjwt
          · rename_i d2 heq
            rw [heq] at hjwt
            simp only [Option.some_bind] at hjwt
            split
            · rename_i hj
              rw [hj] at hjwt
              simp at hjwt
            · rename_i t2 hj
              rw [hj] at hjwt
              simp only [Option.some.injEq] at hjwt
              subst hjwt
              exact List.mem_cons_self _ _
        · rename_i hcon
          exact absurd href hcon
      · have htail := ih harest
        split
        · split
          · exact htail
          · split
            · exact htail
            · split
              · exact htail
              · exact List.mem_cons_of_mem _ htail
        · exact htail

theorem collect_mem_inv (n : String) (accounts : List AccountResM)
    (secrets : NamedAccountSecretStore) (c : CollectedAccountJWT)
    (hc : c ∈ collectAccountJWTs n accounts secrets) :
    ∃ a, a ∈ accounts ∧ a.name = c.AccountName
      ∧ a.authConfigRefName = n ∧ a.statusAccountID = c.AccountID
      ∧ a.statusAccountID ≠ ""
      ∧ (acctJWTSecretLookup secrets (a.name ++ "-account-jwt")).bind
          AccountJWTSecretData.jwt = some c.JWT := by
  induction accounts with
  | nil => cases hc
  | cons b rest ih =>
      simp only [collectAccountJWTs] at hc
      have tailcase : c ∈ collectAccountJWTs n rest secrets →
          ∃ a, a ∈ b :: rest ∧ a.name = c.AccountName
            ∧ a.authConfigRefName = n ∧ a.statusAccountID = c.AccountID
            ∧ a.statusAccountID ≠ ""
            ∧ (acctJWTSecretLookup secrets
                (a.name ++ "-account-jwt")).bind
                AccountJWTSecretData.jwt = some c.JWT := by
        intro hct
        obtain ⟨a, ha, hrest⟩ := ih hct
        exact ⟨a, List.mem_cons_of_mem _ ha, hrest⟩
      revert hc
      split
      · rename_i hbr
        split
        · intro hc
          exact tailcase hc
        · rename_i d heq
          split
          · intro hc
            exact tailcase hc
          · rename_i t hj
            split
            · intro hc
              exact tailcase hc
            · rename_i hbs
              intro hc
              rcases List.mem_cons.1 hc with hceq | hcrest
              · refine ⟨b, List.mem_cons_self _ _, ?_, hbr, ?_, hbs, ?_⟩
                · rw [hceq]
                · rw [hceq]
                · rw [hceq, heq]
                  simp only [Option.some_bind, hj]
              · exact tailcase hcrest
      · intro hc
        exact tailcase hc

/-! ### Claim C6 -/

/-- Fixture: an account whose resource name is literally `operator`. -/
def c6Acct : AccountResM :=
  { name := "operator", authConfigRefName := "cfg",
    statusAccountID := "X" }

/-- Fixture: the persisted token of that account. -/
def c6AcctTok : SignedToken AccountClaims :=
  jwtEncode (newAccountClaims ("A")) ⟨[83, 65, 2]⟩

/-- Fixture: the account JWT secrets of the namespace. -/
def c6Secrets : NamedAccountSecretStore :=
  [("operator-account-jwt", { jwt := some c6AcctTok,
                              seed := [83, 65, 2] })]

/-- Fixture: the auth config, with a declared operator seed secret. -/
def c6Cfg : NatsAuthConfigM :=
  { name := "cfg", resNamespace := "ns",
    JWT := { OperatorSeedSecret := some
               { Name := "opseed", Namespace := "ns", Key := "" },
             OperatorName := "" } }

/-- Fixture: the operator seed secret store. -/
def c6OpStore : OpSeedStore :=
  [(("ns", "opseed"), [("operator.seed", [83, 79, 7])])]

/-- C6 counterexample: with a referencing persisted account whose
resource name is `operator`, the aggregation succeeds but the account
entry overwrites the operator-token entry (same map key), so the
persisted artifact does not contain the operator token at all, against
the claim that it always contains the operator token plus the account
entries. -/
theorem C6_account_named_operator_counterexample :
    reconcileJWTMode c6Cfg c6OpStore [c6Acct] c6Secrets none [1] 0
      = Except.ok ([("operator", AggToken.accountTok c6AcctTok)],
          [AuthConfigWrite.createAggSecret
            [("operator", AggToken.accountTok c6AcctTok)]]) ∧
    (([("operator", AggToken.accountTok c6AcctTok)] :
        AggSecretData).all
      (fun p => match p.2 with
        | AggToken.accountTok _ => true
        | AggToken.operatorTok _ => false)) = true := by
  constructor
  · rfl
  · rfl

/-- C6 amended: after a successful JWT-mode aggregation reconcile, and
provided no referencing account is itself named `operator` (such an
account would overwrite the operator entry, the keys colliding), the
persisted aggregate artifact holds the operator token under the key
`operator` plus exactly one entry per account of the namespace that
references this configuration and has a persisted token and status
public id, keyed by the account resource name and holding that account
token; any other referencing account (token secret or `account.jwt`
entry or status public id not yet persisted) contributes no entry and
does not fail the aggregation. -/
theorem C6_aggregate_artifact_contents (cfg : NatsAuthConfigM)
    (opStore : OpSeedStore) (accounts : List AccountResM)
    (acctSecrets : NamedAccountSecretStore)
    (aggExisting : Option AggSecretData) (entropy : Bytes) (now : Int)
    (m : AggSecretData) (ws : List AuthConfigWrite)
    (hok : reconcileJWTMode cfg opStore accounts acctSecrets aggExisting
      entropy now = Except.ok (m, ws))
    (hnodup : (accounts.map AccountResM.name).Nodup)
    (hnoop : ("operator") ∉ accounts.map AccountResM.name) :
    ∃ opTok : SignedToken OperatorClaims,
      aggLookup m ("operator") = some (AggToken.operatorTok opTok) ∧
      (∀ a ∈ accounts, ∀ t, a.authConfigRefName = cfg.name →
        (acctJWTSecretLookup acctSecrets
          (a.name ++ "-account-jwt")).bind AccountJWTSecretData.jwt
            = some t →
        a.statusAccountID ≠ "" →
        aggLookup m a.name = some (AggToken.accountTok t)) ∧
      (∀ a ∈ accounts,
        (a.authConfigRefName ≠ cfg.name ∨
          (acctJWTSecretLookup acctSecrets
            (a.name ++ "-account-jwt")).bind AccountJWTSecretData.jwt
              = none ∨
          a.statusAccountID = "") →
        aggLookup m a.name = none) ∧
      (∀ k, k ≠ "operator" → k ∉ accounts.map AccountResM.name →
        aggLookup m k = none) := by
  have hmval : ∃ operatorMgr : OperatorManager,
      m = buildJWTSecretData operatorMgr.GetJWT
        (collectAccountJWTs cfg.name accounts acctSecrets) := by
    unfold reconcileJWTMode at hok
    obtain ⟨sw, hseed, hok2⟩ := except_bind_ok _ _ _ hok
    obtain ⟨operatorMgr, hmgr, hok3⟩ := except_bind_ok _ _ _ hok2
    simp only [Except.ok.injEq, Prod.mk.injEq] at hok3
    exact ⟨operatorMgr, hok3.1.symm⟩
  obtain ⟨operatorMgr, hm⟩ := hmval
  subst hm
  have hcolsub := collect_names_sublist cfg.name accounts acctSecrets
  have hcolnd : ((collectAccountJWTs cfg.name accounts
      acctSecrets).map CollectedAccountJWT.AccountName).Nodup :=
    hnodup.sublist hcolsub
  have hnamesub : ∀ c ∈ collectAccountJWTs cfg.name accounts acctSecrets,
      c.AccountName ∈ accounts.map AccountResM.name := by
    intro c hc
    exact hcolsub.subset
      (List.mem_map_of_mem CollectedAccountJWT.AccountName hc)
  refine ⟨operatorMgr.GetJWT, ?_, ?_, ?_, ?_⟩
  · have hfr : ∀ c ∈ collectAccountJWTs cfg.name accounts acctSecrets,
        c.AccountName ≠ "operator" := by
      intro c hc hceq
      exact hnoop (hceq ▸ hnamesub c hc)
    unfold buildJWTSecretData
    rw [aggLookup_fold_frame _ _ _ hfr]
    rfl
  · intro a ha t href hjwt hstat
    have hc := collect_of_persisted cfg.name accounts acctSecrets a t
      ha href hjwt hstat
    have := aggLookup_fold_mem
      (collectAccountJWTs cfg.name accounts acctSecrets)
      [("operator", AggToken.operatorTok operatorMgr.GetJWT)]
      ⟨a.name, a.statusAccountID, t⟩ hcolnd hc
    exact this
  · intro a ha hnq
    have haname : a.name ≠ "operator" := by
      intro heq
      exact hnoop (heq ▸ List.mem_map_of_mem AccountResM.name ha)
    have hfr : ∀ c ∈ collectAccountJWTs cfg.name accounts acctSecrets,
        c.AccountName ≠ a.name := by
      intro c hc hceq
      obtain ⟨a2, ha2, hname2, href2, hid2, hstat2, hjwt2⟩ :=
        collect_mem_inv cfg.name accounts acctSecrets c hc
      have haa : a2 = a := by
        have hinj := List.inj_on_of_nodup_map hnodup
        exact hinj ha2 ha (by rw [hname2, hceq])
      subst haa
      rcases hnq with h1 | h1 | h1
      · exact h1 href2
      · rw [h1] at hjwt2; cases hjwt2
      · exact hstat2 h1
    unfold buildJWTSecretData
    rw [aggLookup_fold_frame _ _ _ hfr]
    simp [aggLookup, Ne.symm haname]
  · intro k hk hkn
    have hfr : ∀ c ∈ collectAccountJWTs cfg.name accounts acctSecrets,
        c.AccountName ≠ k := by
      intro c hc hceq
      exact hkn (hceq ▸ hnamesub c hc)
    unfold buildJWTSecretData
    rw [aggLookup_fold_frame _ _ _ hfr]
    simp [aggLookup, Ne.symm hk]

/-- Fixture: a persisted referencing account named `prod`. -/
def c6Prod : AccountResM :=
  { name := "prod", authConfigRefName := "cfg", statusAccountID := "X" }

/-- Fixture: a referencing account named `dev` with no persisted secret. -/
def c6Dev : AccountResM :=
  { name := "dev", authConfigRefName := "cfg", statusAccountID := "" }

/-- Fixture: secrets of the namespace (only `prod` persisted). -/
def c6Secrets2 : NamedAccountSecretStore :=
  [("prod-account-jwt", { jwt := some c6AcctTok, seed := [83, 65, 2] })]

/-- Witness for C6 amended: a persisted account and a skipped account. -/
theorem C6_aggregate_artifact_contents_witness :
    (∃ m ws, reconcileJWTMode c6Cfg c6OpStore [c6Prod, c6Dev] c6Secrets2
        none [1] 0 = Except.ok (m, ws)) ∧
    (([c6Prod, c6Dev].map AccountResM.name).Nodup) ∧
    (("operator") ∉ [c6Prod, c6Dev].map AccountResM.name) ∧
    (∀ m ws, reconcileJWTMode c6Cfg c6OpStore [c6Prod, c6Dev] c6Secrets2
        none [1] 0 = Except.ok (m, ws) →
      ∃ opTok : SignedToken OperatorClaims,
        aggLookup m ("operator") = some (AggToken.operatorTok opTok) ∧
        (∀ a ∈ [c6Prod, c6Dev], ∀ t, a.authConfigRefName = c6Cfg.name →
          (acctJWTSecretLookup c6Secrets2
            (a.name ++ "-account-jwt")).bind AccountJWTSecretData.jwt
              = some t →
          a.statusAccountID ≠ "" →
          aggLookup m a.name = some (AggToken.accountTok t)) ∧
        (∀ a ∈ [c6Prod, c6Dev],
          (a.authConfigRefName ≠ c6Cfg.name ∨
            (acctJWTSecretLookup c6Secrets2
              (a.name ++ "-account-jwt")).bind AccountJWTSecretData.jwt
                = none ∨
            a.statusAccountID = "") →
          aggLookup m a.name = none) ∧
        (∀ k, k ≠ "operator" → k ∉ [c6Prod, c6Dev].map AccountResM.name →
          aggLookup m k = none)) :=
  ⟨⟨_, _, rfl⟩, by decide, by decide,
   fun m ws hok => C6_aggregate_artifact_contents c6Cfg c6OpStore
     [c6Prod, c6Dev] c6Secrets2 none [1] 0 m ws hok (by decide)
     (by decide)⟩

end NatsOp
